import Mathlib

/-!
# Verification of the H3C VXLAN VNI allocation engine

A shallow embedding of `src/h3c/type_h3c_vxlan.py` (class `H3CVxlanTypeDriver`
and its allocation table `H3CVxlanAllocation`), together with proofs about
range parsing, store reconciliation (`sync_allocations`), segment release
(`release_segment`) and the allocation front door (`reserve_provider_segment`).

The durable store (table `ml2_h3c_vxlan_allocations`) is modelled as a list of
rows; the primary-key constraint on `vxlan_vni` appears as a `Nodup`
hypothesis on the list of keys where a proof needs it.  Python strings are
modelled as `List Char` so that the embedded parser is executable by the
kernel.  The two allocation helpers inherited from the surrounding framework
(`allocate_fully_specified_segment`, `allocate_partially_specified_segment`)
are not part of the repository's source; they are modelled from the spec and
marked as such.
-/

namespace H3CVxlan

/-- One row of the `ml2_h3c_vxlan_allocations` table: class
`H3CVxlanAllocation` of the source, with integer primary key `vxlan_vni` and
boolean column `allocated` (default false). -/
structure H3CVxlanAllocation where
  vxlan_vni : Int
  allocated : Bool
deriving DecidableEq, Repr

/-- The driver's own network type string, `TYPE_H3C_VXLAN = 'h3c_vxlan'`. -/
def TYPE_H3C_VXLAN : String := "h3c_vxlan"

/-- The generic VXLAN type constant `p_const.TYPE_VXLAN = 'vxlan'` imported
from `neutron.plugins.common.constants`. -/
def TYPE_VXLAN : String := "vxlan"

/-- Method `H3CVxlanTypeDriver.get_type`: returns `TYPE_H3C_VXLAN`. -/
def get_type : String := TYPE_H3C_VXLAN

/-- Modelled from the spec: the lower bound `ID_MIN` of the globally valid
identifier domain (`n_const.MIN_VXLAN_VNI`, an external framework constant). -/
def MIN_VXLAN_VNI : Int := 1

/-- Modelled from the spec: the upper bound `ID_MAX` of the globally valid
identifier domain (`n_const.MAX_VXLAN_VNI`, an external framework constant). -/
def MAX_VXLAN_VNI : Int := 16777215

/-- Method `H3CVxlanTypeDriver._is_valid_h3c_vni`:
`MIN_VXLAN_VNI <= vni <= MAX_VXLAN_VNI`. -/
def _is_valid_h3c_vni (vni : Int) : Bool :=
  MIN_VXLAN_VNI ≤ vni && vni ≤ MAX_VXLAN_VNI

/-- The single exception class `exc.NetworkTunnelRangeError` raised by the
range parser, split by the three message shapes the source produces. -/
inductive TunnelRangeError where
  /-- `entry.split(':')` did not yield two integer literals (`ValueError`). -/
  | formatError (entry : List Char)
  /-- a bound is not a valid H3C VNI value. -/
  | invalidVni (vni : Int)
  /-- end of tunnel range is less than start of tunnel range. -/
  | endLessThanStart (tunnel_range : Int × Int)
deriving DecidableEq, Repr

/-- Python's `str.split(':')`, on the character-list model of strings. -/
def splitOnColon : List Char → List (List Char)
  | [] => [[]]
  | c :: rest =>
    match splitOnColon rest with
    | [] => [[]]
    | g :: gs => if c = ':' then [] :: g :: gs else (c :: g) :: gs

/-- Python's `str.strip()`: drop whitespace from both ends. -/
def stripChars (s : List Char) : List Char :=
  ((s.dropWhile Char.isWhitespace).reverse.dropWhile Char.isWhitespace).reverse

/-- Python's `int(s)` on an already-stripped all-digit token body. -/
def parseNatDigits : List Char → Option Nat
  | [] => none
  | cs =>
    if cs.all Char.isDigit then
      some (cs.foldl (fun n c => 10 * n + (c.toNat - 48)) 0)
    else
      none

/-- Python's `int(s)`: optional sign followed by digits; `none` models the
`ValueError` raised on anything else. -/
def parseInt? : List Char → Option Int
  | '-' :: rest => (parseNatDigits rest).map (fun n => -(n : Int))
  | '+' :: rest => (parseNatDigits rest).map (fun n => (n : Int))
  | s => (parseNatDigits s).map (fun n => (n : Int))

/-- The per-entry tokenising step of `_parse_h3c_vni_ranges`:
`entry.strip()`, `tun_min, tun_max = entry.split(':')`, strip both tokens and
convert with `int`; a `ValueError` anywhere becomes
`NetworkTunnelRangeError(tunnel_range=entry, ...)`. -/
def parseTunnelEntry (entry : List Char) : Except TunnelRangeError (Int × Int) :=
  let entry := stripChars entry
  match splitOnColon entry with
  | [tun_min, tun_max] =>
    match parseInt? (stripChars tun_min), parseInt? (stripChars tun_max) with
    | some lo, some hi => .ok (lo, hi)
    | _, _ => .error (.formatError entry)
  | _ => .error (.formatError entry)

/-- Method `H3CVxlanTypeDriver._parse_h3c_vni_range`: raises for a bound outside the
valid VNI domain (checking the lower bound first, as the `for` loop does) or
for an inverted range; `none` means the range is accepted. -/
def _parse_h3c_vni_range (tunnel_range : Int × Int) : Option TunnelRangeError :=
  if !_is_valid_h3c_vni tunnel_range.1 then some (.invalidVni tunnel_range.1)
  else if !_is_valid_h3c_vni tunnel_range.2 then some (.invalidVni tunnel_range.2)
  else if tunnel_range.2 < tunnel_range.1 then some (.endLessThanStart tunnel_range)
  else none

/-- Method `H3CVxlanTypeDriver._parse_h3c_vni_ranges`: iterates over the entries,
appending each validated pair to the mutable output list `current_range`; the
first failing entry aborts the loop with the exception.  The result is the
final contents of `current_range` together with the raised error, if any. -/
def _parse_h3c_vni_ranges :
    List (List Char) → List (Int × Int) → List (Int × Int) × Option TunnelRangeError
  | [], current_range => (current_range, none)
  | entry :: rest, current_range =>
    match parseTunnelEntry entry with
    | .error e => (current_range, some e)
    | .ok tunnel_range =>
      match _parse_h3c_vni_range tunnel_range with
      | some e => (current_range, some e)
      | none => _parse_h3c_vni_ranges rest (current_range ++ [tunnel_range])

/-- The set `vxlan_vnis` built by `sync_allocations`:
`set()` grown by `|= set(xrange(tun_min, tun_max + 1))` per configured range. -/
def configuredVnis (tunnel_ranges : List (Int × Int)) : Finset Int :=
  tunnel_ranges.foldl (fun s r => s ∪ Finset.Icc r.1 r.2) ∅

/-- The set `existing_vnis` of `sync_allocations`:
`set(alloc.vxlan_vni for alloc in allocs)`. -/
def existingVnis (allocs : List H3CVxlanAllocation) : Finset Int :=
  (allocs.map H3CVxlanAllocation.vxlan_vni).toFinset

/-- The list `vnis_to_remove` of `sync_allocations`:
`[alloc.vxlan_vni for alloc in allocs
  if alloc.vxlan_vni not in vxlan_vnis and not alloc.allocated]`. -/
def vnisToRemove (tunnel_ranges : List (Int × Int))
    (allocs : List H3CVxlanAllocation) : List Int :=
  (allocs.filter fun a =>
      decide (a.vxlan_vni ∉ configuredVnis tunnel_ranges) && !a.allocated).map
    H3CVxlanAllocation.vxlan_vni

/-- The list `vnis` of `sync_allocations`: `list(vxlan_vnis - existing_vnis)`,
enumerated in ascending order (Python's set order is unspecified; the store
semantics are order-independent). -/
def vnisToAdd (tunnel_ranges : List (Int × Int))
    (allocs : List H3CVxlanAllocation) : List Int :=
  (configuredVnis tunnel_ranges \ existingVnis allocs).sort (· ≤ ·)

/-- The chunking generator `(l[i:i + n] for i in range(0, len(l), n))` used by
`sync_allocations` with `bulk_size = 100`. -/
def chunksOf (n : Nat) : List α → List (List α)
  | [] => []
  | a :: l => (a :: l.take (n - 1)) :: chunksOf n (l.drop (n - 1))
termination_by l => l.length
decreasing_by simp [List.length_drop]; omega

/-- Method `H3CVxlanTypeDriver.sync_allocations`: within one transaction, read all
rows, delete `vnis_to_remove` in chunks of 100 via
`filter(vxlan_vni.in_(vni_list)).delete()`, then bulk-insert the missing
configured VNIs with `allocated = False` in chunks of 100. -/
def sync_allocations (tunnel_ranges : List (Int × Int))
    (allocs : List H3CVxlanAllocation) : List H3CVxlanAllocation :=
  let afterRemove :=
    (chunksOf 100 (vnisToRemove tunnel_ranges allocs)).foldl
      (fun st vni_list => st.filter fun a => decide (a.vxlan_vni ∉ vni_list))
      allocs
  (chunksOf 100 (vnisToAdd tunnel_ranges allocs)).foldl
    (fun st vni_list =>
      st ++ vni_list.map fun vni => { vxlan_vni := vni, allocated := false })
    afterRemove

/-! ## The allocator -/

/-- The segment dictionary
`{NETWORK_TYPE: ..., PHYSICAL_NETWORK: ..., SEGMENTATION_ID: ...}` returned by
the allocation entry points. -/
structure SegmentDict where
  network_type : String
  physical_network : Option String
  segmentation_id : Int
deriving DecidableEq, Repr

/-- The row-level effect of the SQL `update({"allocated": True})` on the rows
keyed by `vxlan_vni`. -/
def allocateRow (vxlan_vni : Int) (a : H3CVxlanAllocation) : H3CVxlanAllocation :=
  if a.vxlan_vni = vxlan_vni then { a with allocated := true } else a

/-- The row-level effect of the SQL `update({"allocated": False})` on the rows
keyed by `vxlan_vni`. -/
def releaseRow (vxlan_vni : Int) (a : H3CVxlanAllocation) : H3CVxlanAllocation :=
  if a.vxlan_vni = vxlan_vni then { a with allocated := false } else a

/-- Outcome of the spec's `allocate_specific(id)` operation. -/
inductive FullySpecifiedResult where
  /-- the record existed unallocated and was flipped to allocated. -/
  | ok (alloc : H3CVxlanAllocation) (store : List H3CVxlanAllocation)
  /-- the record exists and is already allocated. -/
  | conflict
  /-- no record exists for that id. -/
  | notFound
deriving DecidableEq, Repr

/-- Modelled from the spec: `allocate_fully_specified_segment` is inherited
from the framework driver base class and is not part of this repository's
source.  Per the spec's `allocate_specific(id)`: if a record with that id
exists with `allocated = false`, set `allocated = true` and return it; if it
exists already allocated, return "conflict"; if no record exists, return
"not found". -/
def allocate_fully_specified_segment (store : List H3CVxlanAllocation)
    (vxlan_vni : Int) : FullySpecifiedResult :=
  match store.find? (fun a => a.vxlan_vni = vxlan_vni) with
  | none => .notFound
  | some a =>
    if a.allocated then .conflict
    else .ok { a with allocated := true } (store.map (allocateRow vxlan_vni))

/-- Modelled from the spec: `allocate_partially_specified_segment` is
inherited from the framework driver base class and is not part of this
repository's source.  Per the spec's `allocate_any()`: select one record with
`allocated = false` (a deterministic scan; here the first such row), set
`allocated = true` and return its id, or return no record if none is free. -/
def allocate_partially_specified_segment (store : List H3CVxlanAllocation) :
    Option (H3CVxlanAllocation × List H3CVxlanAllocation) :=
  match store.find? (fun a => !a.allocated) with
  | none => none
  | some a =>
    some ({ a with allocated := true }, store.map (allocateRow a.vxlan_vni))

/-- Method `H3CVxlanTypeDriver.allocate_tenant_segment`: allocate any free segment
and return it under the driver's own type `TYPE_H3C_VXLAN`, or `None`. -/
def allocate_tenant_segment (store : List H3CVxlanAllocation) :
    Option (SegmentDict × List H3CVxlanAllocation) :=
  match allocate_partially_specified_segment store with
  | none => none
  | some (alloc, store') =>
    some ({ network_type := TYPE_H3C_VXLAN
            physical_network := none
            segmentation_id := alloc.vxlan_vni }, store')

/-- The exceptions `reserve_provider_segment` can raise. -/
inductive ReserveError where
  /-- `exc.NoNetworkAvailable`: a partially specified request found no free
  record (pool exhausted). -/
  | noNetworkAvailable
  /-- `exc.TunnelIdInUse(tunnel_id=...)`: a fully specified request did not
  return a record. -/
  | tunnelIdInUse (tunnel_id : Int)
deriving DecidableEq, Repr

/-- Method `H3CVxlanTypeDriver.reserve_provider_segment`: a partial segment (no
segmentation id) goes to `allocate_partially_specified_segment` and raises
`NoNetworkAvailable` on failure; a fully specified one goes to
`allocate_fully_specified_segment` and raises `TunnelIdInUse` whenever no
record is returned.  Success returns the segment under the generic
`p_const.TYPE_VXLAN` type. -/
def reserve_provider_segment (store : List H3CVxlanAllocation)
    (segmentation_id? : Option Int) :
    Except ReserveError (SegmentDict × List H3CVxlanAllocation) :=
  match segmentation_id? with
  | none =>
    match allocate_partially_specified_segment store with
    | none => .error .noNetworkAvailable
    | some (alloc, store') =>
      .ok ({ network_type := TYPE_VXLAN
             physical_network := none
             segmentation_id := alloc.vxlan_vni }, store')
  | some segmentation_id =>
    match allocate_fully_specified_segment store segmentation_id with
    | .ok alloc store' =>
      .ok ({ network_type := TYPE_VXLAN
             physical_network := none
             segmentation_id := alloc.vxlan_vni }, store')
    | _ => .error (.tunnelIdInUse segmentation_id)

/-- Method `H3CVxlanTypeDriver.release_segment`: if the vni lies inside some
configured range, `update({"allocated": False})` on the rows keyed by it;
otherwise `delete()` them.  The returned count is the number of rows the
query matched; `count == 0` triggers the `"vxlan_vni %s not found"` warning
and nothing else. -/
def release_segment (tunnel_ranges : List (Int × Int))
    (store : List H3CVxlanAllocation) (vxlan_vni : Int) :
    List H3CVxlanAllocation × Nat :=
  let inside := tunnel_ranges.any fun r =>
    decide (r.1 ≤ vxlan_vni) && decide (vxlan_vni ≤ r.2)
  let count := (store.filter fun a => a.vxlan_vni = vxlan_vni).length
  if inside then
    (store.map (releaseRow vxlan_vni), count)
  else
    (store.filter fun a => a.vxlan_vni ≠ vxlan_vni, count)

/-- An entry accepted by one iteration of the `_parse_h3c_vni_ranges` loop:
both the tokenising step and the `_parse_h3c_vni_range` check succeed. -/
def acceptedEntry (entry : List Char) : Option (Int × Int) :=
  match parseTunnelEntry entry with
  | .error _ => none
  | .ok tunnel_range =>
    match _parse_h3c_vni_range tunnel_range with
    | some _ => none
    | none => some tunnel_range

/-! ## Lemmas about the chunked bulk operations of `sync_allocations` -/

theorem chunksOf_flatten (n : Nat) (l : List α) : (chunksOf n l).flatten = l := by
  induction l using chunksOf.induct n with
  | case1 => simp [chunksOf]
  | case2 a l ih => simp [chunksOf, ih]

theorem foldl_filter_chunks (cs : List (List Int)) (st : List H3CVxlanAllocation) :
    cs.foldl (fun st vni_list => st.filter fun a => decide (a.vxlan_vni ∉ vni_list)) st
      = st.filter fun a => decide (a.vxlan_vni ∉ cs.flatten) := by
  induction cs generalizing st with
  | nil => simp
  | cons c cs ih =>
    rw [List.foldl_cons, ih, List.filter_filter]
    refine List.filter_congr fun a _ => ?_
    by_cases h1 : a.vxlan_vni ∈ c <;> by_cases h2 : a.vxlan_vni ∈ cs.flatten <;>
      simp [h1, h2]

theorem foldl_append_chunks (cs : List (List Int)) (st : List H3CVxlanAllocation)
    (f : Int → H3CVxlanAllocation) :
    cs.foldl (fun st vni_list => st ++ vni_list.map f) st = st ++ cs.flatten.map f := by
  induction cs generalizing st with
  | nil => simp
  | cons c cs ih => simp [ih, List.append_assoc]

/-- Reconciliation, with the chunked bulk delete and insert flattened out. -/
theorem sync_allocations_eq (tunnel_ranges : List (Int × Int))
    (allocs : List H3CVxlanAllocation) :
    sync_allocations tunnel_ranges allocs
      = (allocs.filter fun a =>
            decide (a.vxlan_vni ∉ vnisToRemove tunnel_ranges allocs))
        ++ (vnisToAdd tunnel_ranges allocs).map
            (fun vni => { vxlan_vni := vni, allocated := false }) := by
  rw [sync_allocations, foldl_filter_chunks, foldl_append_chunks,
    chunksOf_flatten, chunksOf_flatten]

/-! ## Membership characterisations -/

theorem mem_foldl_union_Icc (tunnel_ranges : List (Int × Int)) (init : Finset Int)
    (v : Int) :
    v ∈ tunnel_ranges.foldl (fun s r => s ∪ Finset.Icc r.1 r.2) init ↔
      v ∈ init ∨ ∃ r ∈ tunnel_ranges, r.1 ≤ v ∧ v ≤ r.2 := by
  induction tunnel_ranges generalizing init with
  | nil => simp
  | cons r rs ih =>
    rw [List.foldl_cons, ih]
    simp only [Finset.mem_union, Finset.mem_Icc, List.mem_cons]
    constructor
    · rintro ((h | h) | ⟨r', hr', h⟩)
      · exact Or.inl h
      · exact Or.inr ⟨r, Or.inl rfl, h⟩
      · exact Or.inr ⟨r', Or.inr hr', h⟩
    · rintro (h | ⟨r', (rfl | hr'), h⟩)
      · exact Or.inl (Or.inl h)
      · exact Or.inl (Or.inr h)
      · exact Or.inr ⟨r', hr', h⟩

theorem mem_configuredVnis (tunnel_ranges : List (Int × Int)) (v : Int) :
    v ∈ configuredVnis tunnel_ranges ↔ ∃ r ∈ tunnel_ranges, r.1 ≤ v ∧ v ≤ r.2 := by
  rw [configuredVnis, mem_foldl_union_Icc]
  simp

theorem mem_existingVnis (allocs : List H3CVxlanAllocation) (v : Int) :
    v ∈ existingVnis allocs ↔ ∃ a ∈ allocs, a.vxlan_vni = v := by
  simp [existingVnis]

theorem mem_vnisToRemove (tunnel_ranges : List (Int × Int))
    (allocs : List H3CVxlanAllocation) (v : Int) :
    v ∈ vnisToRemove tunnel_ranges allocs ↔
      ∃ a ∈ allocs, a.vxlan_vni = v ∧ a.allocated = false ∧
        a.vxlan_vni ∉ configuredVnis tunnel_ranges := by
  simp only [vnisToRemove, List.mem_map, List.mem_filter, Bool.and_eq_true,
    decide_eq_true_eq, Bool.not_eq_true']
  constructor
  · rintro ⟨a, ⟨ha, hcfg, hal⟩, rfl⟩
    exact ⟨a, ha, rfl, hal, hcfg⟩
  · rintro ⟨a, ha, rfl, hal, hcfg⟩
    exact ⟨a, ⟨ha, hcfg, hal⟩, rfl⟩

theorem not_mem_vnisToRemove_of_configured (tunnel_ranges : List (Int × Int))
    (allocs : List H3CVxlanAllocation) (v : Int)
    (hv : v ∈ configuredVnis tunnel_ranges) : v ∉ vnisToRemove tunnel_ranges allocs := by
  rw [mem_vnisToRemove]
  rintro ⟨a, _, hkey, _, hcfg⟩
  exact hcfg (hkey ▸ hv)

theorem mem_vnisToAdd (tunnel_ranges : List (Int × Int))
    (allocs : List H3CVxlanAllocation) (v : Int) :
    v ∈ vnisToAdd tunnel_ranges allocs ↔
      v ∈ configuredVnis tunnel_ranges ∧ v ∉ existingVnis allocs := by
  rw [vnisToAdd, Finset.mem_sort, Finset.mem_sdiff]

theorem vnisToAdd_nodup (tunnel_ranges : List (Int × Int))
    (allocs : List H3CVxlanAllocation) : (vnisToAdd tunnel_ranges allocs).Nodup :=
  Finset.sort_nodup _ _

/-- In a list whose keys are `Nodup`, the rows matching a fixed key number one
or zero according to key membership. -/
theorem length_filter_key_of_nodup (l : List H3CVxlanAllocation) (v : Int)
    (hnd : (l.map H3CVxlanAllocation.vxlan_vni).Nodup) :
    (l.filter fun a => a.vxlan_vni = v).length
      = if v ∈ l.map H3CVxlanAllocation.vxlan_vni then 1 else 0 := by
  induction l with
  | nil => simp
  | cons a l ih =>
    simp only [List.map_cons, List.nodup_cons] at hnd
    obtain ⟨ha, hnd⟩ := hnd
    by_cases h : a.vxlan_vni = v
    · rw [List.filter_cons_of_pos (by simpa using h)]
      have hnil : l.filter (fun a => a.vxlan_vni = v) = [] := by
        rw [List.filter_eq_nil_iff]
        intro b hb
        simp only [decide_eq_true_eq]
        intro hfb
        exact ha (h ▸ hfb ▸ List.mem_map_of_mem H3CVxlanAllocation.vxlan_vni hb)
      simp [hnil, List.mem_cons, h]
    · rw [List.filter_cons_of_neg (by simpa using h)]
      rw [ih hnd]
      have hv : (v ∈ a.vxlan_vni :: l.map H3CVxlanAllocation.vxlan_vni)
          ↔ v ∈ l.map H3CVxlanAllocation.vxlan_vni := by
        simp only [List.mem_cons]
        exact or_iff_right (fun hva => h hva.symm)
      simp only [List.map_cons]
      rw [if_congr hv rfl rfl]

/-- In a `Nodup` list, the elements equal to a fixed one number one or zero
according to membership. -/
theorem length_filter_eq_of_nodup (l : List Int) (v : Int) (hnd : l.Nodup) :
    (l.filter fun x => x = v).length = if v ∈ l then 1 else 0 := by
  induction l with
  | nil => simp
  | cons a l ih =>
    simp only [List.nodup_cons] at hnd
    obtain ⟨ha, hnd⟩ := hnd
    by_cases h : a = v
    · rw [List.filter_cons_of_pos (by simpa using h)]
      have hnil : l.filter (fun x => x = v) = [] := by
        rw [List.filter_eq_nil_iff]
        intro b hb
        simp only [decide_eq_true_eq]
        intro hfb
        exact ha (h ▸ hfb ▸ hb)
      simp [hnil, List.mem_cons, h]
    · rw [List.filter_cons_of_neg (by simpa using h)]
      rw [ih hnd]
      have hv : (v ∈ a :: l) ↔ v ∈ l := by
        simp only [List.mem_cons]
        exact or_iff_right (fun hva => h hva.symm)
      rw [if_congr hv rfl rfl]

/-! ## Reconciliation: the claims about `sync_allocations` -/

/-- C1: after `sync_allocations`, every VNI covered by some configured range
has exactly one record in the store; a record present before reconciliation is
kept verbatim (its allocated flag unchanged), and a VNI with no prior record
gets a fresh unallocated record. -/
theorem sync_covered_exactly_one (tunnel_ranges : List (Int × Int))
    (allocs : List H3CVxlanAllocation)
    (hnd : (allocs.map H3CVxlanAllocation.vxlan_vni).Nodup)
    (v : Int) (hv : ∃ r ∈ tunnel_ranges, r.1 ≤ v ∧ v ≤ r.2) :
    ((sync_allocations tunnel_ranges allocs).filter fun a => a.vxlan_vni = v).length = 1
    ∧ (∀ a ∈ allocs, a.vxlan_vni = v → a ∈ sync_allocations tunnel_ranges allocs)
    ∧ (v ∉ allocs.map H3CVxlanAllocation.vxlan_vni →
        (⟨v, false⟩ : H3CVxlanAllocation) ∈ sync_allocations tunnel_ranges allocs) := by
  have hcfg : v ∈ configuredVnis tunnel_ranges := (mem_configuredVnis _ _).mpr hv
  have hnotrem : v ∉ vnisToRemove tunnel_ranges allocs :=
    not_mem_vnisToRemove_of_configured _ _ _ hcfg
  rw [sync_allocations_eq]
  refine ⟨?_, ?_, ?_⟩
  · rw [List.filter_append, List.length_append, List.filter_filter]
    have hkept : (allocs.filter fun a =>
          decide (a.vxlan_vni = v) &&
            decide (a.vxlan_vni ∉ vnisToRemove tunnel_ranges allocs))
        = allocs.filter fun a => a.vxlan_vni = v := by
      refine List.filter_congr fun a _ => ?_
      by_cases h : a.vxlan_vni = v
      · simp [h, hnotrem]
      · simp [h]
    rw [hkept, length_filter_key_of_nodup _ _ hnd]
    have hins : (((vnisToAdd tunnel_ranges allocs).map
          (fun vni => ({ vxlan_vni := vni, allocated := false } : H3CVxlanAllocation))).filter
            fun a => a.vxlan_vni = v)
        = ((vnisToAdd tunnel_ranges allocs).filter fun x => x = v).map
            (fun vni => ({ vxlan_vni := vni, allocated := false } : H3CVxlanAllocation)) :=
      List.filter_map _ _
    rw [hins, List.length_map, length_filter_eq_of_nodup _ _ (vnisToAdd_nodup _ _)]
    by_cases hmem : v ∈ allocs.map H3CVxlanAllocation.vxlan_vni
    · have hnadd : v ∉ vnisToAdd tunnel_ranges allocs := by
        rw [mem_vnisToAdd]
        rintro ⟨-, hne⟩
        refine hne ((mem_existingVnis _ _).mpr ?_)
        simpa [List.mem_map] using hmem
      simp [hmem, hnadd]
    · have hadd : v ∈ vnisToAdd tunnel_ranges allocs := by
        rw [mem_vnisToAdd]
        refine ⟨hcfg, fun hex => ?_⟩
        obtain ⟨a, ha, hkey⟩ := (mem_existingVnis _ _).mp hex
        exact hmem (hkey ▸ List.mem_map_of_mem _ ha)
      simp [hmem, hadd]
  · intro a ha hkey
    refine List.mem_append_left _ ?_
    rw [List.mem_filter]
    exact ⟨ha, by simpa [hkey] using hnotrem⟩
  · intro hno
    refine List.mem_append_right _ ?_
    rw [List.mem_map]
    refine ⟨v, ?_, rfl⟩
    rw [mem_vnisToAdd]
    refine ⟨hcfg, fun hex => ?_⟩
    obtain ⟨a, ha, hkey⟩ := (mem_existingVnis _ _).mp hex
    exact hno (hkey ▸ List.mem_map_of_mem _ ha)

/-- Witness for C1 on ranges `[(100, 102)]`, a store holding an allocated
record for 101. -/
theorem sync_covered_exactly_one_witness :
    (([⟨101, true⟩] : List H3CVxlanAllocation).map H3CVxlanAllocation.vxlan_vni).Nodup
    ∧ (∃ r ∈ [((100 : Int), (102 : Int))], r.1 ≤ (101 : Int) ∧ (101 : Int) ≤ r.2)
    ∧ (((sync_allocations [(100, 102)] [⟨101, true⟩]).filter
          fun a => a.vxlan_vni = 101).length = 1
      ∧ (∀ a ∈ ([⟨101, true⟩] : List H3CVxlanAllocation), a.vxlan_vni = 101 →
          a ∈ sync_allocations [(100, 102)] [⟨101, true⟩])
      ∧ ((101 : Int) ∉ ([⟨101, true⟩] : List H3CVxlanAllocation).map
            H3CVxlanAllocation.vxlan_vni →
          (⟨101, false⟩ : H3CVxlanAllocation) ∈ sync_allocations [(100, 102)] [⟨101, true⟩])) :=
  ⟨by decide, by decide,
    sync_covered_exactly_one [(100, 102)] [⟨101, true⟩] (by decide) 101 (by decide)⟩

/-- C2: `sync_allocations` keeps a pre-existing record exactly when it is
allocated or its VNI is still covered by some configured range; equivalently
it removes exactly the unallocated out-of-range records and never removes an
allocated one. -/
theorem sync_removes_exactly (tunnel_ranges : List (Int × Int))
    (allocs : List H3CVxlanAllocation)
    (hnd : (allocs.map H3CVxlanAllocation.vxlan_vni).Nodup)
    (a : H3CVxlanAllocation) (ha : a ∈ allocs) :
    a ∈ sync_allocations tunnel_ranges allocs ↔
      (a.allocated = true ∨ ∃ r ∈ tunnel_ranges, r.1 ≤ a.vxlan_vni ∧ a.vxlan_vni ≤ r.2) := by
  rw [sync_allocations_eq, List.mem_append]
  have hins : a ∉ (vnisToAdd tunnel_ranges allocs).map
      (fun vni => ({ vxlan_vni := vni, allocated := false } : H3CVxlanAllocation)) := by
    rw [List.mem_map]
    rintro ⟨x, hx, rfl⟩
    rw [mem_vnisToAdd] at hx
    exact hx.2 ((mem_existingVnis _ _).mpr ⟨_, ha, rfl⟩)
  simp only [hins, or_false]
  rw [List.mem_filter]
  simp only [ha, true_and, decide_eq_true_eq]
  rw [← mem_configuredVnis]
  constructor
  · intro hnr
    by_cases hal : a.allocated
    · exact Or.inl hal
    · by_cases hc : a.vxlan_vni ∈ configuredVnis tunnel_ranges
      · exact Or.inr hc
      · exact absurd ((mem_vnisToRemove _ _ _).mpr
          ⟨a, ha, rfl, by simpa using hal, hc⟩) hnr
  · rintro (hal | hc)
    · intro hmem
      obtain ⟨b, hb, hkey, hbal, -⟩ := (mem_vnisToRemove _ _ _).mp hmem
      have hba : b = a := List.inj_on_of_nodup_map hnd hb ha hkey
      rw [hba, hal] at hbal
      exact absurd hbal (by decide)
    · exact not_mem_vnisToRemove_of_configured _ _ _ hc

/-- Witness for C2 on ranges `[(200, 201)]` and a store where 101 is
allocated but out of range. -/
theorem sync_removes_exactly_witness :
    (([⟨101, true⟩] : List H3CVxlanAllocation).map H3CVxlanAllocation.vxlan_vni).Nodup
    ∧ (⟨101, true⟩ : H3CVxlanAllocation) ∈ ([⟨101, true⟩] : List H3CVxlanAllocation)
    ∧ ((⟨101, true⟩ : H3CVxlanAllocation) ∈ sync_allocations [(200, 201)] [⟨101, true⟩] ↔
        ((⟨101, true⟩ : H3CVxlanAllocation).allocated = true
          ∨ ∃ r ∈ [((200 : Int), (201 : Int))],
              r.1 ≤ (⟨101, true⟩ : H3CVxlanAllocation).vxlan_vni
              ∧ (⟨101, true⟩ : H3CVxlanAllocation).vxlan_vni ≤ r.2)) :=
  ⟨by decide, by decide,
    sync_removes_exactly [(200, 201)] [⟨101, true⟩] (by decide) ⟨101, true⟩ (by decide)⟩

/-- C3: reconciliation is idempotent: a second `sync_allocations` with the
same configuration performs no deletions and no insertions, leaving the store
exactly as the first run left it. -/
theorem sync_idempotent (tunnel_ranges : List (Int × Int))
    (allocs : List H3CVxlanAllocation) :
    sync_allocations tunnel_ranges (sync_allocations tunnel_ranges allocs)
      = sync_allocations tunnel_ranges allocs := by
  have hrem : vnisToRemove tunnel_ranges (sync_allocations tunnel_ranges allocs) = [] := by
    rw [vnisToRemove]
    have hfil : (sync_allocations tunnel_ranges allocs).filter
        (fun a => decide (a.vxlan_vni ∉ configuredVnis tunnel_ranges) && !a.allocated) = [] := by
      rw [List.filter_eq_nil_iff]
      intro a hmem
      rw [sync_allocations_eq, List.mem_append] at hmem
      rcases hmem with hkept | hins
      · rw [List.mem_filter] at hkept
        obtain ⟨ha, hkeep⟩ := hkept
        simp only [Bool.and_eq_true, decide_eq_true_eq, Bool.not_eq_true', not_and]
        intro hc hal
        refine absurd ?_ (by simpa using hkeep)
        exact (mem_vnisToRemove _ _ _).mpr ⟨a, ha, rfl, hal, hc⟩
      · rw [List.mem_map] at hins
        obtain ⟨x, hx, rfl⟩ := hins
        rw [mem_vnisToAdd] at hx
        simp [hx.1]
    rw [hfil, List.map_nil]
  have hadd : vnisToAdd tunnel_ranges (sync_allocations tunnel_ranges allocs) = [] := by
    rw [vnisToAdd]
    have hsub : configuredVnis tunnel_ranges
        ⊆ existingVnis (sync_allocations tunnel_ranges allocs) := by
      intro v hvc
      rw [mem_existingVnis]
      by_cases hex : v ∈ existingVnis allocs
      · obtain ⟨a, ha, hkey⟩ := (mem_existingVnis _ _).mp hex
        refine ⟨a, ?_, hkey⟩
        rw [sync_allocations_eq]
        refine List.mem_append_left _ ?_
        rw [List.mem_filter]
        refine ⟨ha, ?_⟩
        simpa using (hkey ▸ not_mem_vnisToRemove_of_configured tunnel_ranges allocs v hvc)
      · refine ⟨⟨v, false⟩, ?_, rfl⟩
        rw [sync_allocations_eq]
        refine List.mem_append_right _ ?_
        rw [List.mem_map]
        exact ⟨v, (mem_vnisToAdd _ _ _).mpr ⟨hvc, hex⟩, rfl⟩
    rw [Finset.sdiff_eq_empty_iff_subset.mpr hsub, Finset.sort_empty]
  rw [sync_allocations_eq tunnel_ranges (sync_allocations tunnel_ranges allocs), hrem, hadd]
  simp only [List.map_nil, List.append_nil]
  rw [List.filter_eq_self]
  intro a _
  simp

/-! ## The allocator: release and reserve -/

theorem releaseRow_key (vxlan_vni : Int) (a : H3CVxlanAllocation) :
    (releaseRow vxlan_vni a).vxlan_vni = a.vxlan_vni := by
  simp only [releaseRow]
  by_cases h : a.vxlan_vni = vxlan_vni <;> simp [h]

theorem releaseRow_self (vxlan_vni : Int) (a : H3CVxlanAllocation) :
    releaseRow vxlan_vni (releaseRow vxlan_vni a) = releaseRow vxlan_vni a := by
  simp only [releaseRow]
  by_cases h : a.vxlan_vni = vxlan_vni <;> simp [h]

/-- C10: releasing an in-range id whose record is already unallocated keeps
the record present and unallocated, matches at least one row (so the
`not found` warning is not emitted), and a second identical release returns
the very same store and count as the first. -/
theorem release_inside_idempotent (tunnel_ranges : List (Int × Int))
    (allocs : List H3CVxlanAllocation) (vxlan_vni : Int)
    (hin : (tunnel_ranges.any fun r =>
        decide (r.1 ≤ vxlan_vni) && decide (vxlan_vni ≤ r.2)) = true)
    (hmem : (⟨vxlan_vni, false⟩ : H3CVxlanAllocation) ∈ allocs) :
    (⟨vxlan_vni, false⟩ : H3CVxlanAllocation)
        ∈ (release_segment tunnel_ranges allocs vxlan_vni).1
    ∧ (release_segment tunnel_ranges allocs vxlan_vni).2 ≠ 0
    ∧ release_segment tunnel_ranges
          (release_segment tunnel_ranges allocs vxlan_vni).1 vxlan_vni
        = release_segment tunnel_ranges allocs vxlan_vni := by
  simp only [release_segment, hin, if_true]
  refine ⟨?_, ?_, ?_⟩
  · exact List.mem_map.mpr ⟨⟨vxlan_vni, false⟩, hmem, by simp [releaseRow]⟩
  · have hf : (⟨vxlan_vni, false⟩ : H3CVxlanAllocation)
        ∈ allocs.filter fun a => a.vxlan_vni = vxlan_vni :=
      List.mem_filter.mpr ⟨hmem, by simp⟩
    intro h0
    rw [List.length_eq_zero] at h0
    rw [h0] at hf
    exact absurd hf (List.not_mem_nil _)
  · have hmm : (allocs.map (releaseRow vxlan_vni)).map (releaseRow vxlan_vni)
        = allocs.map (releaseRow vxlan_vni) := by
      rw [List.map_map]
      exact List.map_congr_left fun a _ => releaseRow_self vxlan_vni a
    have hcnt : ((allocs.map (releaseRow vxlan_vni)).filter
          fun a => a.vxlan_vni = vxlan_vni).length
        = (allocs.filter fun a => a.vxlan_vni = vxlan_vni).length := by
      rw [List.filter_map, List.length_map]
      congr 1
      refine List.filter_congr fun a _ => ?_
      simp [Function.comp, releaseRow_key]
    rw [hmm, hcnt]

/-- Witness for C10: ranges `[(100, 102)]`, store with 101 unallocated. -/
theorem release_inside_idempotent_witness :
    (([((100 : Int), (102 : Int))].any fun r =>
        decide (r.1 ≤ (101 : Int)) && decide ((101 : Int) ≤ r.2)) = true)
    ∧ (⟨101, false⟩ : H3CVxlanAllocation) ∈ ([⟨101, false⟩] : List H3CVxlanAllocation)
    ∧ ((⟨101, false⟩ : H3CVxlanAllocation)
          ∈ (release_segment [(100, 102)] [⟨101, false⟩] 101).1
      ∧ (release_segment [(100, 102)] [⟨101, false⟩] 101).2 ≠ 0
      ∧ release_segment [(100, 102)]
            (release_segment [(100, 102)] [⟨101, false⟩] 101).1 101
          = release_segment [(100, 102)] [⟨101, false⟩] 101) :=
  ⟨by decide, by decide,
    release_inside_idempotent [(100, 102)] [⟨101, false⟩] 101 (by decide) (by decide)⟩

/-- C4 counterexample: releasing id 200 outside the configured range
`[(100, 102)]` deletes the record, but the subsequent fully specified
allocation of 200 surfaces `TunnelIdInUse` (the in-use error), not a distinct
not-found error as the claim states. -/
theorem release_outside_then_reserve_counterexample :
    release_segment [(100, 102)] [⟨200, true⟩] 200 = ([], 1)
    ∧ reserve_provider_segment
          (release_segment [(100, 102)] [⟨200, true⟩] 200).1 (some 200)
        = .error (.tunnelIdInUse 200) :=
  ⟨rfl, rfl⟩

/-- C4 (amended): releasing an id inside some configured range sets its
record to unallocated and a subsequent fully specified allocation of it
succeeds; releasing an id outside all ranges deletes the record and a
subsequent fully specified allocation surfaces `TunnelIdInUse` (the code has
no distinct not-found error); releasing an id with no matching record leaves
the store unchanged and matches zero rows (warning only). -/
theorem release_paths (tunnel_ranges : List (Int × Int))
    (allocs : List H3CVxlanAllocation) (vxlan_vni : Int) :
    ((tunnel_ranges.any fun r =>
        decide (r.1 ≤ vxlan_vni) && decide (vxlan_vni ≤ r.2)) = true →
      ∀ b : Bool, (⟨vxlan_vni, b⟩ : H3CVxlanAllocation) ∈ allocs →
        (⟨vxlan_vni, false⟩ : H3CVxlanAllocation)
            ∈ (release_segment tunnel_ranges allocs vxlan_vni).1
        ∧ ∃ st', reserve_provider_segment
              (release_segment tunnel_ranges allocs vxlan_vni).1 (some vxlan_vni)
            = .ok (⟨TYPE_VXLAN, none, vxlan_vni⟩, st'))
    ∧ ((tunnel_ranges.any fun r =>
        decide (r.1 ≤ vxlan_vni) && decide (vxlan_vni ≤ r.2)) = false →
      (∀ a ∈ (release_segment tunnel_ranges allocs vxlan_vni).1,
          a.vxlan_vni ≠ vxlan_vni)
      ∧ reserve_provider_segment
            (release_segment tunnel_ranges allocs vxlan_vni).1 (some vxlan_vni)
          = .error (.tunnelIdInUse vxlan_vni))
    ∧ ((∀ a ∈ allocs, a.vxlan_vni ≠ vxlan_vni) →
      release_segment tunnel_ranges allocs vxlan_vni = (allocs, 0)) := by
  refine ⟨?_, ?_, ?_⟩
  · intro hin b hb
    simp only [release_segment, hin, if_true]
    have hmem : (⟨vxlan_vni, false⟩ : H3CVxlanAllocation)
        ∈ allocs.map (releaseRow vxlan_vni) :=
      List.mem_map.mpr ⟨⟨vxlan_vni, b⟩, hb, by simp [releaseRow]⟩
    refine ⟨hmem, ?_⟩
    have hsome : ((allocs.map (releaseRow vxlan_vni)).find?
        (fun a => a.vxlan_vni = vxlan_vni)).isSome := by
      rw [List.find?_isSome]
      exact ⟨_, hmem, by simp⟩
    obtain ⟨u, hfind⟩ := Option.isSome_iff_exists.mp hsome
    have hukey : u.vxlan_vni = vxlan_vni := by
      simpa using List.find?_some hfind
    have hual : u.allocated = false := by
      obtain ⟨a₀, -, ha₀⟩ := List.mem_map.mp (List.mem_of_find?_eq_some hfind)
      by_cases h : a₀.vxlan_vni = vxlan_vni
      · rw [← ha₀]
        simp [releaseRow, h]
      · exfalso
        apply h
        rw [← hukey, ← ha₀, releaseRow_key]
    refine ⟨(allocs.map (releaseRow vxlan_vni)).map (allocateRow vxlan_vni), ?_⟩
    simp [reserve_provider_segment, allocate_fully_specified_segment, hfind, hual, hukey]
  · intro hout
    simp only [release_segment, hout, if_false, Bool.false_eq_true]
    have hall : ∀ a ∈ allocs.filter fun a => a.vxlan_vni ≠ vxlan_vni,
        a.vxlan_vni ≠ vxlan_vni := by
      intro a ha
      simpa using (List.mem_filter.mp ha).2
    refine ⟨hall, ?_⟩
    have hnone : (allocs.filter fun a => a.vxlan_vni ≠ vxlan_vni).find?
        (fun a => a.vxlan_vni = vxlan_vni) = none := by
      rw [List.find?_eq_none]
      intro a ha
      simpa using hall a ha
    simp only [reserve_provider_segment, allocate_fully_specified_segment, hnone]
  · intro hnone
    have hcnt : (allocs.filter fun a => a.vxlan_vni = vxlan_vni).length = 0 := by
      have : allocs.filter (fun a => a.vxlan_vni = vxlan_vni) = [] := by
        rw [List.filter_eq_nil_iff]
        intro a ha
        simpa using hnone a ha
      rw [this, List.length_nil]
    by_cases hin : (tunnel_ranges.any fun r =>
        decide (r.1 ≤ vxlan_vni) && decide (vxlan_vni ≤ r.2)) = true
    · simp only [release_segment, hin, if_true, hcnt]
      have : allocs.map (releaseRow vxlan_vni) = allocs := by
        have h1 : allocs.map (releaseRow vxlan_vni) = allocs.map (fun a => a) :=
          List.map_congr_left fun a ha => by simp [releaseRow, hnone a ha]
        rw [h1, List.map_id']
      rw [this]
    · rw [Bool.not_eq_true] at hin
      simp only [release_segment, hin, if_false, Bool.false_eq_true, hcnt]
      have : allocs.filter (fun a => a.vxlan_vni ≠ vxlan_vni) = allocs := by
        rw [List.filter_eq_self]
        intro a ha
        simpa using hnone a ha
      rw [this]

/-- Witness for C4 (amended), exercising the in-range branch: ranges
`[(100, 102)]`, store with 101 allocated. -/
theorem release_paths_witness :
    (([((100 : Int), (102 : Int))].any fun r =>
        decide (r.1 ≤ (101 : Int)) && decide ((101 : Int) ≤ r.2)) = true)
    ∧ (⟨101, true⟩ : H3CVxlanAllocation) ∈ ([⟨101, true⟩] : List H3CVxlanAllocation)
    ∧ ((⟨101, false⟩ : H3CVxlanAllocation)
          ∈ (release_segment [(100, 102)] [⟨101, true⟩] 101).1
      ∧ ∃ st', reserve_provider_segment
            (release_segment [(100, 102)] [⟨101, true⟩] 101).1 (some 101)
          = .ok (⟨TYPE_VXLAN, none, 101⟩, st')) :=
  ⟨by decide, by decide,
    (release_paths [(100, 102)] [⟨101, true⟩] 101).1 (by decide) true (by decide)⟩

/-- C5 counterexample: a fully specified allocation of an id with no backing
record at all surfaces `TunnelIdInUse` — the same error as the conflict case —
and not a distinct not-found error, contrary to the claim. -/
theorem reserve_specific_not_found_counterexample :
    reserve_provider_segment [] (some 100) = .error (.tunnelIdInUse 100) := rfl

/-- C5 (amended): a fully specified allocation fails with `TunnelIdInUse`
both when the targeted record exists already allocated and when no record
exists at all; `reserve_provider_segment` raises no other error for fully
specified requests. -/
theorem reserve_specific_failure_in_use (store : List H3CVxlanAllocation)
    (vxlan_vni : Int)
    (h : ∀ a ∈ store, a.vxlan_vni = vxlan_vni → a.allocated = true) :
    reserve_provider_segment store (some vxlan_vni)
      = .error (.tunnelIdInUse vxlan_vni) := by
  rcases hfind : store.find? (fun a => a.vxlan_vni = vxlan_vni) with - | u
  · simp only [reserve_provider_segment, allocate_fully_specified_segment, hfind]
  · have hu : u.allocated = true :=
      h u (List.mem_of_find?_eq_some hfind) (by simpa using List.find?_some hfind)
    simp only [reserve_provider_segment, allocate_fully_specified_segment, hfind, hu,
      if_true]

/-- Witness for C5 (amended): the conflict case, store `[⟨100, true⟩]`. -/
theorem reserve_specific_failure_in_use_witness :
    (∀ a ∈ ([⟨100, true⟩] : List H3CVxlanAllocation),
        a.vxlan_vni = 100 → a.allocated = true)
    ∧ reserve_provider_segment [⟨100, true⟩] (some 100)
        = .error (.tunnelIdInUse 100) :=
  ⟨by decide, reserve_specific_failure_in_use [⟨100, true⟩] 100 (by decide)⟩

/-- C6: a partially specified request served when every record in the store
is allocated raises `NoNetworkAvailable` (pool exhausted), returning no id. -/
theorem reserve_partial_pool_exhausted (store : List H3CVxlanAllocation)
    (h : ∀ a ∈ store, a.allocated = true) :
    reserve_provider_segment store none = .error .noNetworkAvailable := by
  have hfind : store.find? (fun a => !a.allocated) = none := by
    rw [List.find?_eq_none]
    intro a ha
    simp [h a ha]
  simp only [reserve_provider_segment, allocate_partially_specified_segment, hfind]

/-- Witness for C6: the one-record fully allocated store. -/
theorem reserve_partial_pool_exhausted_witness :
    (∀ a ∈ ([⟨100, true⟩] : List H3CVxlanAllocation), a.allocated = true)
    ∧ reserve_provider_segment [⟨100, true⟩] none = .error .noNetworkAvailable :=
  ⟨by decide, reserve_partial_pool_exhausted [⟨100, true⟩] (by decide)⟩

theorem reserve_ok_network_type (store : List H3CVxlanAllocation)
    (seg : Option Int) (p : SegmentDict × List H3CVxlanAllocation)
    (hres : reserve_provider_segment store seg = .ok p) :
    p.1.network_type = TYPE_VXLAN := by
  cases seg with
  | none =>
    rcases halloc : allocate_partially_specified_segment store with - | pr
    · rw [reserve_provider_segment, halloc] at hres
      exact absurd hres (by simp)
    · obtain ⟨alloc, store'⟩ := pr
      rw [reserve_provider_segment, halloc] at hres
      simp only [Except.ok.injEq] at hres
      rw [← hres]
  | some vni =>
    cases halloc : allocate_fully_specified_segment store vni with
    | ok alloc store' =>
      rw [reserve_provider_segment, halloc] at hres
      simp only [Except.ok.injEq] at hres
      rw [← hres]
    | conflict =>
      rw [reserve_provider_segment, halloc] at hres
      exact absurd hres (by simp)
    | notFound =>
      rw [reserve_provider_segment, halloc] at hres
      exact absurd hres (by simp)

theorem allocate_tenant_network_type (store : List H3CVxlanAllocation)
    (q : SegmentDict × List H3CVxlanAllocation)
    (hten : allocate_tenant_segment store = some q) :
    q.1.network_type = TYPE_H3C_VXLAN := by
  rcases halloc : allocate_partially_specified_segment store with - | pr
  · rw [allocate_tenant_segment, halloc] at hten
    exact absurd hten (by simp)
  · obtain ⟨alloc, store'⟩ := pr
    rw [allocate_tenant_segment, halloc] at hten
    simp only [Option.some.injEq] at hten
    rw [← hten]

/-- C9: any successful `reserve_provider_segment` result carries the generic
network type `'vxlan'` (`p_const.TYPE_VXLAN`), while `allocate_tenant_segment`
labels segments from the same pool with the driver's own type `'h3c_vxlan'`
(= `get_type`); the two strings differ. -/
theorem reserve_network_type_mismatch (store : List H3CVxlanAllocation)
    (seg : Option Int) (p q : SegmentDict × List H3CVxlanAllocation)
    (hres : reserve_provider_segment store seg = .ok p)
    (hten : allocate_tenant_segment store = some q) :
    p.1.network_type = TYPE_VXLAN ∧ q.1.network_type = get_type
    ∧ get_type = TYPE_H3C_VXLAN ∧ p.1.network_type ≠ q.1.network_type := by
  have h1 := reserve_ok_network_type store seg p hres
  have h2 := allocate_tenant_network_type store q hten
  refine ⟨h1, h2, rfl, ?_⟩
  rw [h1, h2]
  decide

/-- Witness for C9: store `[⟨7, false⟩]`, partially specified request. -/
theorem reserve_network_type_mismatch_witness :
    reserve_provider_segment [⟨7, false⟩] none
        = .ok (⟨TYPE_VXLAN, none, 7⟩, [⟨7, true⟩])
    ∧ allocate_tenant_segment [⟨7, false⟩]
        = some (⟨TYPE_H3C_VXLAN, none, 7⟩, [⟨7, true⟩])
    ∧ ((⟨TYPE_VXLAN, none, (7 : Int)⟩ : SegmentDict).network_type = TYPE_VXLAN
      ∧ (⟨TYPE_H3C_VXLAN, none, (7 : Int)⟩ : SegmentDict).network_type = get_type
      ∧ get_type = TYPE_H3C_VXLAN
      ∧ (⟨TYPE_VXLAN, none, (7 : Int)⟩ : SegmentDict).network_type
          ≠ (⟨TYPE_H3C_VXLAN, none, (7 : Int)⟩ : SegmentDict).network_type) :=
  ⟨rfl, rfl,
    reserve_network_type_mismatch [⟨7, false⟩] none
      (⟨TYPE_VXLAN, none, 7⟩, [⟨7, true⟩])
      (⟨TYPE_H3C_VXLAN, none, 7⟩, [⟨7, true⟩]) rfl rfl⟩

/-! ## Range parsing -/

/-- C7 counterexample: on the input `["100:200", "0:10"]` the second entry
fails bound validation and the parse aborts, yet the output list already
contains the partially accepted first entry `(100, 200)` — so the parse is
not all-or-nothing on its output sequence. -/
theorem parse_partial_acceptance_counterexample :
    _parse_h3c_vni_ranges ["100:200".toList, "0:10".toList] []
        = ([(100, 200)], some (.invalidVni 0))
    ∧ ((100 : Int), (200 : Int))
        ∈ (_parse_h3c_vni_ranges ["100:200".toList, "0:10".toList] []).1 := by
  exact ⟨by decide, by decide⟩

/-- C7 (amended): if any entry fails validation the parse aborts with an
error at the first failing entry; the entries validated before it, however,
remain appended to the output list (the caller then treats the error as fatal
and terminates, so the partial list is never served). -/
theorem parse_aborts_at_first_failure (entries : List (List Char))
    (current_range : List (Int × Int))
    (h : ∃ e ∈ entries, acceptedEntry e = none) :
    (_parse_h3c_vni_ranges entries current_range).2.isSome = true
    ∧ (_parse_h3c_vni_ranges entries current_range).1
        = current_range
          ++ (entries.takeWhile fun e => (acceptedEntry e).isSome).filterMap
              acceptedEntry := by
  induction entries generalizing current_range with
  | nil => simp at h
  | cons e rest ih =>
    rcases hpe : parseTunnelEntry e with err | tr
    · have hacc : acceptedEntry e = none := by simp [acceptedEntry, hpe]
      simp only [_parse_h3c_vni_ranges, hpe]
      simp [hacc]
    · rcases hpr : _parse_h3c_vni_range tr with - | err
      · have hacc : acceptedEntry e = some tr := by simp [acceptedEntry, hpe, hpr]
        have hrest : ∃ e ∈ rest, acceptedEntry e = none := by
          obtain ⟨x, hx, hxn⟩ := h
          rcases List.mem_cons.mp hx with rfl | hx'
          · rw [hacc] at hxn
            exact absurd hxn (by simp)
          · exact ⟨x, hx', hxn⟩
        have hnext := ih (current_range ++ [tr]) hrest
        simp only [_parse_h3c_vni_ranges, hpe, hpr]
        refine ⟨hnext.1, ?_⟩
        rw [hnext.2]
        simp [hacc, List.takeWhile_cons, List.filterMap_cons, List.append_assoc]
      · have hacc : acceptedEntry e = none := by simp [acceptedEntry, hpe, hpr]
        simp only [_parse_h3c_vni_ranges, hpe, hpr]
        simp [hacc]

/-- Witness for C7 (amended) on the input `["100:200", "0:10"]`. -/
theorem parse_aborts_at_first_failure_witness :
    (∃ e ∈ ["100:200".toList, "0:10".toList], acceptedEntry e = none)
    ∧ ((_parse_h3c_vni_ranges ["100:200".toList, "0:10".toList] []).2.isSome = true
      ∧ (_parse_h3c_vni_ranges ["100:200".toList, "0:10".toList] []).1
          = []
            ++ (["100:200".toList, "0:10".toList].takeWhile
                fun e => (acceptedEntry e).isSome).filterMap acceptedEntry) :=
  ⟨by decide,
    parse_aborts_at_first_failure ["100:200".toList, "0:10".toList] [] (by decide)⟩

end H3CVxlan
